import Mathlib

/-!
Verification of the command-dispatch and build-orchestration layer of
nikola (src/nikola/__main__.py).

The embedding below translates the Python source into executable Lean
definitions.  Effects are made explicit:

* `DoitNikola.run` (source lines 267-302) becomes a pure function from a
  command registry, the `nikola.configured` flag and the argument list to
  a `RunOutcome` (the early `return 3` paths are distinguished from the
  dispatch to the external engine `super().run`).
* `main` (source lines 62-145) becomes a function from a `MainEnv`
  (abstracting the observable environment: tty state, filesystem answers,
  the result of executing the configuration file, availability of
  freezegun, the exit code of the dispatched engine run, and what the
  constructed Site Model reports for `invariant`) and the argument list
  to a `MainTrace`: an ordered event list plus the outcome and the final
  state of the module-global `config`.
* `Clean.clean_tasks` (lines 209-214) and `NikolaTaskLoader.load_tasks`
  (lines 227-246) become pure functions over an abstract file system and
  over the quiet flag.

Byte-string literals in the source (`b'build'`, `b'-q'`, ...) are
compared against `sys.argv` tokens; the embedding uses Python 2 string
semantics, under which byte literals and text tokens compare equal (under
Python 3 those comparisons would all be false; the module declares dual
2/3 support and the spec, like the surrounding code, describes the
Python 2 behaviour).
-/

/-- Class of the object stored in the command registry, as far as the
project gate of `DoitNikola.run` (line 296) can distinguish it:
`doitCmd` is an instance of a doit command class (the generic engine
commands and the nikola subclasses Build, Clean, DoitAuto), `helpCls` is
an instance of the nikola `Help` class, `pluginCmd` is an instance of the
nikola plugin category `Command`. -/
inductive CmdClass
  | doitCmd
  | helpCls
  | pluginCmd
  deriving DecidableEq

/-- The gate test of line 296: `isinstance(sub_cmds[args[0]], (Command, Help))`. -/
def isCommandOrHelp : CmdClass → Bool
  | CmdClass.doitCmd => false
  | CmdClass.helpCls => true
  | CmdClass.pluginCmd => true

/-- A command registry: ordered mapping from command name to the class of
the registered command object (Python dict, last registration wins). -/
abbrev Registry := List (String × CmdClass)

/-- Python dict assignment `d[k] = v` on an association list: replace the
first binding of `k`, or append a new one. -/
def assocSet {β : Type} : List (String × β) → String → β → List (String × β)
  | [], k, v => [(k, v)]
  | (k0, v0) :: rest, k, v =>
      if k0 == k then (k, v) :: rest else (k0, v0) :: assocSet rest k v

/-- Python dict update: apply the bindings of `upd` over `base` in order. -/
def mergeRegistry (base upd : Registry) : Registry :=
  upd.foldl (fun r kv => assocSet r kv.1 kv.2) base

/-- Modelled from the spec: the generic engine commands contributed by the
external execution engine (doit), which is not part of this repository.
Per spec section 3 they form the base of the registry and are instances of
doit command classes (project-gated by default).  `doit_auto` is the
engine auto command after the rename of source line 218. -/
def doitBuiltinCommands : Registry :=
  [("help", CmdClass.doitCmd), ("run", CmdClass.doitCmd), ("clean", CmdClass.doitCmd),
   ("list", CmdClass.doitCmd), ("forget", CmdClass.doitCmd), ("ignore", CmdClass.doitCmd),
   ("doit_auto", CmdClass.doitCmd), ("dumpdb", CmdClass.doitCmd), ("strace", CmdClass.doitCmd),
   ("tabcompletion", CmdClass.doitCmd)]

/-- The specializations declared in `DoitNikola.DOIT_CMDS` (source line
251): the nikola `Help` overrides the engine help by name, while `Build`,
`Clean` and `DoitAuto` are subclasses of doit command classes and hence
still `doitCmd` for the gate test. -/
def nikolaSpecializations : Registry :=
  [("help", CmdClass.helpCls), ("build", CmdClass.doitCmd), ("clean", CmdClass.doitCmd),
   ("doit_auto", CmdClass.doitCmd)]

/-- Modelled from the spec: the Site-Model supplied plugin commands merged
last in `DoitNikola.get_commands` (source lines 262-264).  The plugin
modules themselves (`nikola._commands`) are repository code that is not
under src/; per spec section 3 the meta commands `version` and `init` are
plugin commands, instances of the plugin category `Command`, and per the
spec they are never project-gated. -/
def nikolaPluginCommands : Registry :=
  [("version", CmdClass.pluginCmd), ("init", CmdClass.pluginCmd), ("auto", CmdClass.pluginCmd),
   ("serve", CmdClass.pluginCmd), ("new_post", CmdClass.pluginCmd), ("check", CmdClass.pluginCmd),
   ("deploy", CmdClass.pluginCmd), ("console", CmdClass.pluginCmd),
   ("import_wordpress", CmdClass.pluginCmd)]

/-- The merged registry built by `DoitNikola.get_commands` (lines 259-265):
engine commands, then the DOIT_CMDS specializations, then plugin commands,
later registrations overwriting earlier ones by name. -/
def DoitNikola.get_commands : Registry :=
  mergeRegistry (mergeRegistry doitBuiltinCommands nikolaSpecializations) nikolaPluginCommands

/-- Help spelling test of line 276/284: the token is `--help` or `-h`. -/
def helpSpelling (a : String) : Bool := a == "--help" || a == "-h"

/-- Version spelling test of line 290: the token is `--version` or `-V`. -/
def versionSpelling (a : String) : Bool := a == "--version" || a == "-V"

/-- Lines 283-288: drop every help spelling from the token list. -/
def stripHelp (args : List String) : List String :=
  args.filter (fun a => !helpSpelling a)

/-- Lines 272-274: an empty argument list is replaced by `['help']`. -/
def emptyStage (args : List String) : List String :=
  if args.isEmpty then ["help"] else args

/-- Lines 276-288: if any token is a help spelling, rewrite the whole
invocation to `help` followed by the original tokens with all help
spellings stripped. -/
def helpStage (args : List String) : List String :=
  if args.any helpSpelling then stripHelp ("help" :: args) else args

/-- Lines 290-292: if any (possibly already rewritten) token is a version
spelling, the invocation becomes `['version']`.  Note the source uses a
plain `if`, not an `elif` chained to the help rewrite. -/
def versionStage (args : List String) : List String :=
  if args.any versionSpelling then ["version"] else args

/-- The token rewriting performed by `DoitNikola.run` before command
lookup (lines 272-292), in source order.  `process_args` and `sys_decode`
(line 269-270) are identities on already-decoded tokens. -/
def resolveArgs (args : List String) : List String :=
  versionStage (helpStage (emptyStage args))

/-- First token after the rewrites; the one looked up in the registry at
line 293. -/
def firstResolved (args : List String) : String :=
  (resolveArgs args).headD ""

/-- Result of `DoitNikola.run`: the two early `return 3` paths (line 295
logs "Unknown command", line 300 logs "This command needs to run inside an
existing Nikola site"), or the dispatch to `super().run` (line 302), which
is where doit parses options and the task graph is assembled and executed. -/
inductive RunOutcome
  | unknownCommand (name : String)
  | notConfigured
  | dispatch (cmdArgs : List String)
  deriving DecidableEq

/-- Exit code of the early returns; `none` when the engine result of the
dispatched `super().run` is forwarded instead. -/
def RunOutcome.exitCode : RunOutcome → Option Nat
  | RunOutcome.unknownCommand _ => some 3
  | RunOutcome.notConfigured => some 3
  | RunOutcome.dispatch _ => none

/-- `DoitNikola.run` (lines 267-302).  `subCmds` is the result of
`self.get_commands()` (it depends on the Site Model plugin set, so it is
a parameter); `configured` is `self.nikola.configured`. -/
def DoitNikola.run (subCmds : Registry) (configured : Bool) (cmdArgs : List String) : RunOutcome :=
  match resolveArgs cmdArgs with
  | [] => RunOutcome.unknownCommand ""
  | a :: t =>
      match subCmds.lookup a with
      | none => RunOutcome.unknownCommand a
      | some c =>
          if !isCommandOrHelp c && !configured then RunOutcome.notConfigured
          else RunOutcome.dispatch (a :: t)

/-- Values stored in the Config mapping: the reserved flags are booleans
and a string; user values are opaque. -/
inductive CVal
  | b (v : Bool)
  | s (v : String)
  | other (tag : Nat)
  deriving DecidableEq

/-- The module-global `config` dict (line 59): mapping from string keys to
values. -/
abbrev ConfigDict := List (String × CVal)

/-- Observable steps of `main`, in program order. -/
inductive Event
  | logNotice (msg : String)
  | pushStrictHandler
  | pushNullHandler
  | logInfo (msg : String)
  | chdir (root : String)
  | logError (msg : String)
  | logWarn (msg : String)
  | configLoaded
  | freezeStart
  | reqMissingFreezegun
  | writePluginsInit
  | injectKey (k : String)
  | constructSite
  | dispatchEngine (args : List String)
  | freezeStop
  deriving DecidableEq

/-- How `main` ends: `sys.exit(1)` (line 114), the unbound-local error
raised by `freeze.stop()` at line 144 when `freeze` was never assigned, or
a normal return of the engine exit status (line 145). -/
inductive MainOutcome
  | sysExit (code : Nat)
  | unboundLocalError
  | ret (code : Int)
  deriving DecidableEq

/-- Environment of one `main` invocation.  Every field abstracts a
collaborator outside this module: the tty and OS checks of lines 64,
`get_root_dir`, the execution of the configuration file (lines 104-109:
either the resulting module namespace or an exception), the
`os.path.exists` answer used in the handler (line 111), the formatted
truncated traceback (line 112), the availability of freezegun (line 123),
the plugins-directory state (line 131), what the constructed Site Model
reports for `site.invariant` (line 143; the `Nikola` class is repository
code outside src/), and the exit status of the dispatched engine run
(line 141). -/
structure MainEnv where
  stderrIsAtty : Bool
  osNameNt : Bool
  getRootDir : Option String
  confLoad : Except Unit ConfigDict
  confExists : Bool
  tracebackText : String
  freezegunAvailable : Bool
  pluginsDirExists : Bool
  pluginsInitExists : Bool
  siteInvariant : Bool
  engineExit : Int

/-- Full record of one `main` invocation: the ordered event list, the
outcome, the final value of the module-global `config`, the mapping handed
to `Nikola(**config)` (none when `main` exited before line 140), whether
`DoitNikola.run` was invoked, whether `freeze.start()` ran, and the
`quiet` flag. -/
structure MainTrace where
  events : List Event
  outcome : MainOutcome
  globalConfig : ConfigDict
  sitePassedConfig : Option ConfigDict
  dispatched : Bool
  freezeStarted : Bool
  quiet : Bool

/-- Lines 72-77 share this shape: first token is `build` and the given
flag token is present (Python 2 comparison of the byte literals). -/
def buildFlagPresent (args : List String) (flag : String) : Bool :=
  !args.isEmpty && args.headD "" == "build" && args.contains flag

/-- Line 72: `len(args) > 0 and args[0] == b'build' and b'--strict' in args`. -/
def mainStrictFlag (args : List String) : Bool :=
  buildFlagPresent args "--strict"

/-- Line 75, with the source operator precedence kept: the `--quiet` test
is a separate disjunct not guarded by the `build` first token. -/
def mainQuietFlag (args : List String) : Bool :=
  buildFlagPresent args "-q" || args.contains "--quiet"

/-- Line 121: `len(args) > 0 and args[0] == b'build' and b'--invariant' in args`. -/
def invariantBranch (args : List String) : Bool :=
  buildFlagPresent args "--invariant"

/-- Lines 82-87: scan for the first token starting with `--conf=`; return
the configured file name and the argument list with that token deleted. -/
def findConf : List String → Option (String × List String)
  | [] => none
  | a :: rest =>
      if a.take 7 == "--conf=" then some (a.drop 7, rest)
      else
        match findConf rest with
        | none => none
        | some (f, r) => some (f, a :: r)

/-- Configuration file name after the `--conf=` scan; default `conf.py`
(line 81). -/
def confFilenameOf (args : List String) : String :=
  match findConf args with
  | some (f, _) => f
  | none => "conf.py"

/-- Argument list after the `del args[index]` of line 86. -/
def argsAfterConf (args : List String) : List String :=
  match findConf args with
  | some (_, r) => r
  | none => args

/-- Lines 93-100: the command needs a configuration file unless the first
token is absent or falsy, is `init` or `version`, or starts with
`import_`. -/
def needsConfigFile (args : List String) : Bool :=
  match args.head? with
  | none => false
  | some a => !(a == "") && !(a == "init") && !(a == "version") && !("import_".isPrefixOf a)

/-- Line 113 message: the file name and the truncated traceback. -/
def parseErrorMsg (fn msg : String) : String :=
  "\"" ++ fn ++ "\" cannot be parsed.\n" ++ msg

/-- Line 116 message. -/
def missingConfMsg (fn : String) : String :=
  "Cannot find configuration file \"" ++ fn ++ "\"."

/-- Line 95-97: chdir to the located root, when one is found. -/
def rootEvents (env : MainEnv) : List Event :=
  match env.getRootDir with
  | some r => [Event.chdir r]
  | none => []

/-- Events of lines 63-100: strict notice and handler push, null handler
push for quiet, the `--conf=` info line, and the chdir to the project
root. -/
def preEvents (env : MainEnv) (args0 : List String) : List Event :=
  (if mainStrictFlag args0 then [Event.logNotice "Running in strict mode", Event.pushStrictHandler] else [])
  ++ (if mainQuietFlag args0 then [Event.pushNullHandler] else [])
  ++ (if (findConf args0).isSome then [Event.logInfo ("Using config file " ++ confFilenameOf args0)] else [])
  ++ (if needsConfigFile (argsAfterConf args0) then rootEvents env else [])

/-- Lines 121-128: when the invariant branch is taken, either freezegun is
imported and the freeze starts (the local `freeze` is then bound), or the
missing requirement is reported and the local stays unbound.  Returns
(invariant flag, freeze started, events). -/
def invariantStep (branch avail : Bool) : Bool × Bool × List Event :=
  if branch then
    if avail then (true, true, [Event.freezeStart])
    else (false, false, [Event.reqMissingFreezegun])
  else (false, false, [])

/-- Lines 130-133: only with a non-empty Config, create the plugins
package marker when the directory exists without it. -/
def pluginsEvents (env : MainEnv) (cfg : ConfigDict) : List Event :=
  if cfg.isEmpty then []
  else if env.pluginsDirExists && !env.pluginsInitExists then [Event.writePluginsInit] else []

/-- Lines 135-138: the four reserved keys written into the global config,
in source order. -/
def injectReserved (cfg : ConfigDict) (colorful invariant quiet : Bool) (fn : String) : ConfigDict :=
  assocSet (assocSet (assocSet (assocSet cfg "__colorful__" (CVal.b colorful))
    "__invariant__" (CVal.b invariant)) "__quiet__" (CVal.b quiet))
    "__configuration_filename__" (CVal.s fn)

/-- The event block of lines 135-140: the four reserved-key writes
followed by the Site Model construction. -/
def injectBlock : List Event :=
  [Event.injectKey "__colorful__", Event.injectKey "__invariant__", Event.injectKey "__quiet__",
   Event.injectKey "__configuration_filename__", Event.constructSite]

/-- Lines 143-145: if the constructed site reports invariant mode, call
`freeze.stop()`; when the local `freeze` was never bound this raises
instead of returning.  Returns (outcome, events). -/
def finalStep (siteInv freezeStarted : Bool) (code : Int) : MainOutcome × List Event :=
  if siteInv then
    if freezeStarted then (MainOutcome.ret code, [Event.freezeStop])
    else (MainOutcome.unboundLocalError, [])
  else (MainOutcome.ret code, [])

/-- Lines 119-145 of `main`: everything after the configuration load
resolved without exiting.  `evs` are the events accumulated so far
(ending with `configLoaded`). -/
def mainRest (env : MainEnv) (args : List String) (confFilename : String)
    (colorful quiet : Bool) (cfg : ConfigDict) (evs : List Event) : MainTrace :=
  { events := evs ++ (invariantStep (invariantBranch args) env.freezegunAvailable).2.2
      ++ pluginsEvents env cfg ++ injectBlock
      ++ (Event.dispatchEngine args
            :: (finalStep env.siteInvariant
                 (invariantStep (invariantBranch args) env.freezegunAvailable).2.1
                 env.engineExit).2),
    outcome := (finalStep env.siteInvariant
        (invariantStep (invariantBranch args) env.freezegunAvailable).2.1 env.engineExit).1,
    globalConfig := injectReserved cfg colorful
        (invariantStep (invariantBranch args) env.freezegunAvailable).1 quiet confFilename,
    sitePassedConfig := some (injectReserved cfg colorful
        (invariantStep (invariantBranch args) env.freezegunAvailable).1 quiet confFilename),
    dispatched := true,
    freezeStarted := (invariantStep (invariantBranch args) env.freezegunAvailable).2.1,
    quiet := quiet }

/-- `main` of the module `nikola.__main__` (lines 62-145).  The
module-global `config` starts empty.  (Lean reserves the bare name
`main`, hence the namespace.) -/
def NikolaMain.main (env : MainEnv) (args0 : List String) : MainTrace :=
  match env.confLoad with
  | Except.error _ =>
      if env.confExists then
        { events := preEvents env args0
            ++ [Event.logError (parseErrorMsg (confFilenameOf args0) env.tracebackText)],
          outcome := MainOutcome.sysExit 1,
          globalConfig := [],
          sitePassedConfig := none,
          dispatched := false,
          freezeStarted := false,
          quiet := mainQuietFlag args0 }
      else
        mainRest env (argsAfterConf args0) (confFilenameOf args0)
          (env.stderrIsAtty && !env.osNameNt) (mainQuietFlag args0) []
          (preEvents env args0
            ++ (if needsConfigFile (argsAfterConf args0)
                  then [Event.logWarn (missingConfMsg (confFilenameOf args0))] else [])
            ++ [Event.configLoaded])
  | Except.ok d =>
      mainRest env (argsAfterConf args0) (confFilenameOf args0)
        (env.stderrIsAtty && !env.osNameNt) (mainQuietFlag args0) d
        (preEvents env args0 ++ [Event.configLoaded])

/-- Abstract file system: the list of existing paths. -/
abbrev FS := List String

/-- `os.path.exists` over the abstract file system. -/
def pathExists (fs : FS) (p : String) : Bool := fs.contains p

/-- `shutil.rmtree p`: remove the path and everything below it. -/
def rmtreeFS (fs : FS) (p : String) : FS :=
  fs.filter (fun q => !(q == p || (p ++ "/").isPrefixOf q))

/-- Observable steps of `Clean.clean_tasks`: the cache purge, then the
generic doit clean (`super().clean_tasks`, external engine code, which
removes the dependency store and declared build products). -/
inductive CleanEvent
  | rmtree (path : String)
  | genericClean (dryrun : Bool)
  deriving DecidableEq

/-- Line 211: `config.get('CACHE_FOLDER', 'cache')`.  A bound non-string
value would make the following `os.path.exists` raise, modelled as an
error. -/
def getCacheFolder (cfg : ConfigDict) : Except Unit String :=
  match cfg.lookup "CACHE_FOLDER" with
  | none => Except.ok "cache"
  | some (CVal.s v) => Except.ok v
  | some _ => Except.error ()

/-- `Clean.clean_tasks` (lines 209-214) over the module-global `config`
and the abstract file system: purge the configured cache tree first (only
for a real run with a non-empty config, and only if the directory
exists), then always run the generic clean. -/
def Clean.clean_tasks (cfg : ConfigDict) (fs : FS) (dryrun : Bool) :
    Except Unit (FS × List CleanEvent) :=
  if !dryrun && !cfg.isEmpty then
    match getCacheFolder cfg with
    | Except.error _ => Except.error ()
    | Except.ok cacheFolder =>
        if pathExists fs cacheFolder then
          Except.ok (rmtreeFS fs cacheFolder,
            [CleanEvent.rmtree cacheFolder, CleanEvent.genericClean dryrun])
        else Except.ok (fs, [CleanEvent.genericClean dryrun])
  else Except.ok (fs, [CleanEvent.genericClean dryrun])

/-- Reporter selected in `NikolaTaskLoader.load_tasks`: the silent string
reporter `'zero'` or the `ExecutedOnlyReporter` class. -/
inductive Reporter
  | zeroReporter
  | executedOnlyReporter
  deriving DecidableEq

/-- Output sink of the reporter. -/
inductive OutStream
  | stderr
  deriving DecidableEq

/-- The `DOIT_CONFIG` dict assembled by `load_tasks` (lines 228-238). -/
structure DoitConfig where
  verbosity : Option Nat
  reporter : Reporter
  outfile : Option OutStream
  default_tasks : List String
  deriving DecidableEq

/-- `NikolaTaskLoader.load_tasks` (lines 227-246): generate the
`render_site` tasks then the `post_render` tasks (both queried from the
Site Model, abstracted as the two input lists) and pair them with the
execution configuration derived from the quiet flag. -/
def NikolaTaskLoader.load_tasks (quiet : Bool) (renderTasks postRenderTasks : List String) :
    List String × DoitConfig :=
  let cfg : DoitConfig :=
    if quiet then
      { verbosity := some 0, reporter := Reporter.zeroReporter, outfile := none,
        default_tasks := ["render_site", "post_render"] }
    else
      { verbosity := none, reporter := Reporter.executedOnlyReporter, outfile := some OutStream.stderr,
        default_tasks := ["render_site", "post_render"] }
  (renderTasks ++ postRenderTasks, cfg)

/-- Environment with a successfully executed empty configuration file. -/
def envOkEmpty : MainEnv :=
  { stderrIsAtty := false, osNameNt := false, getRootDir := none,
    confLoad := Except.ok [], confExists := true, tracebackText := "",
    freezegunAvailable := false, pluginsDirExists := false, pluginsInitExists := false,
    siteInvariant := false, engineExit := 0 }

/-- Environment where the configuration file exists but raises while
being executed. -/
def envParseFail : MainEnv :=
  { stderrIsAtty := false, osNameNt := false, getRootDir := none,
    confLoad := Except.error (), confExists := true, tracebackText := "ZeroDivisionError",
    freezegunAvailable := false, pluginsDirExists := false, pluginsInitExists := false,
    siteInvariant := false, engineExit := 0 }

/-- Environment whose constructed Site Model reports invariant mode even
though no freeze was started by this invocation. -/
def envFrozenReport : MainEnv :=
  { stderrIsAtty := false, osNameNt := false, getRootDir := none,
    confLoad := Except.ok [], confExists := true, tracebackText := "",
    freezegunAvailable := false, pluginsDirExists := false, pluginsInitExists := false,
    siteInvariant := true, engineExit := 0 }


/-! ## Helper lemmas about the token rewriting of `DoitNikola.run` -/

theorem stripHelp_cons_help (args : List String) :
    stripHelp ("help" :: args) = "help" :: stripHelp args := rfl

theorem emptyStage_cons (a : String) (l : List String) : emptyStage (a :: l) = a :: l := rfl

theorem emptyStage_of_ne_nil (args : List String) (h : args ≠ []) : emptyStage args = args := by
  cases args with
  | nil => exact absurd rfl h
  | cons a l => rfl

theorem emptyStage_ne_nil (args : List String) : emptyStage args ≠ [] := by
  cases args <;> simp [emptyStage]

theorem stripHelp_any_version (args : List String) :
    (stripHelp args).any versionSpelling = args.any versionSpelling := by
  induction args with
  | nil => rfl
  | cons a t ih =>
      unfold stripHelp at ih ⊢
      rw [List.filter_cons]
      by_cases h : helpSpelling a = true
      · have hv : versionSpelling a = false := by
          simp only [helpSpelling, Bool.or_eq_true, beq_iff_eq] at h
          rcases h with rfl | rfl <;> rfl
        simp [h, hv, ih]
      · have h2 : (!helpSpelling a) = true := by
          rw [Bool.not_eq_true] at h
          rw [h]
          rfl
        simp [h2, ih]

theorem resolveArgs_cases (args : List String) :
    resolveArgs args = ["version"]
    ∨ resolveArgs args = "help" :: stripHelp (emptyStage args)
    ∨ resolveArgs args = emptyStage args := by
  unfold resolveArgs versionStage helpStage
  by_cases hh : (emptyStage args).any helpSpelling = true
  · rw [if_pos hh, stripHelp_cons_help]
    by_cases hv : ("help" :: stripHelp (emptyStage args)).any versionSpelling = true
    · rw [if_pos hv]
      exact Or.inl rfl
    · rw [if_neg hv]
      exact Or.inr (Or.inl rfl)
  · rw [if_neg hh]
    by_cases hv : (emptyStage args).any versionSpelling = true
    · rw [if_pos hv]
      exact Or.inl rfl
    · rw [if_neg hv]
      exact Or.inr (Or.inr rfl)

theorem resolveArgs_ne_nil (args : List String) : resolveArgs args ≠ [] := by
  rcases resolveArgs_cases args with h | h | h
  · rw [h]; simp
  · rw [h]; simp
  · rw [h]; exact emptyStage_ne_nil args

theorem run_eq_of_resolve (sub : Registry) (configured : Bool) (cmdArgs : List String)
    (a : String) (t : List String) (h : resolveArgs cmdArgs = a :: t) :
    DoitNikola.run sub configured cmdArgs =
      (match sub.lookup a with
       | none => RunOutcome.unknownCommand a
       | some c =>
           if !isCommandOrHelp c && !configured then RunOutcome.notConfigured
           else RunOutcome.dispatch (a :: t)) := by
  unfold DoitNikola.run
  rw [h]

theorem lookup_help : DoitNikola.get_commands.lookup "help" = some CmdClass.helpCls := by decide

theorem lookup_version : DoitNikola.get_commands.lookup "version" = some CmdClass.pluginCmd := by
  decide

theorem lookup_init : DoitNikola.get_commands.lookup "init" = some CmdClass.pluginCmd := by decide

theorem run_dispatch_of_exempt (sub : Registry) (configured : Bool) (cmdArgs : List String)
    (a : String) (t : List String) (c : CmdClass)
    (h : resolveArgs cmdArgs = a :: t) (hl : sub.lookup a = some c)
    (hc : isCommandOrHelp c = true) :
    DoitNikola.run sub configured cmdArgs = RunOutcome.dispatch (a :: t) := by
  rw [run_eq_of_resolve sub configured cmdArgs a t h, hl]
  simp [hc]

theorem run_meta_dispatch (m : String) (rest : List String) (configured : Bool)
    (hm : DoitNikola.get_commands.lookup m = some CmdClass.pluginCmd
        ∨ DoitNikola.get_commands.lookup m = some CmdClass.helpCls) :
    ∃ ds, DoitNikola.run DoitNikola.get_commands configured (m :: rest)
       = RunOutcome.dispatch ds := by
  rcases resolveArgs_cases (m :: rest) with h | h | h
  · exact ⟨["version"],
      run_dispatch_of_exempt _ configured (m :: rest) "version" [] CmdClass.pluginCmd h
        lookup_version rfl⟩
  · exact ⟨"help" :: stripHelp (emptyStage (m :: rest)),
      run_dispatch_of_exempt _ configured (m :: rest) "help" _ CmdClass.helpCls h
        lookup_help rfl⟩
  · rw [emptyStage_cons] at h
    rcases hm with hm | hm
    · exact ⟨m :: rest,
        run_dispatch_of_exempt _ configured (m :: rest) m rest CmdClass.pluginCmd h hm rfl⟩
    · exact ⟨m :: rest,
        run_dispatch_of_exempt _ configured (m :: rest) m rest CmdClass.helpCls h hm rfl⟩

theorem any_helpSpelling_of_mem (args : List String) (h : "--help" ∈ args ∨ "-h" ∈ args) :
    args.any helpSpelling = true := by
  rcases h with h | h
  · exact List.any_eq_true.2 ⟨"--help", h, rfl⟩
  · exact List.any_eq_true.2 ⟨"-h", h, rfl⟩

theorem any_versionSpelling_of_mem (args : List String) (h : "--version" ∈ args ∨ "-V" ∈ args) :
    args.any versionSpelling = true := by
  rcases h with h | h
  · exact List.any_eq_true.2 ⟨"--version", h, rfl⟩
  · exact List.any_eq_true.2 ⟨"-V", h, rfl⟩

theorem any_versionSpelling_eq_false (args : List String)
    (h : ¬("--version" ∈ args ∨ "-V" ∈ args)) : args.any versionSpelling = false := by
  rw [Bool.eq_false_iff]
  intro hc
  rcases List.any_eq_true.1 hc with ⟨x, hx, hpx⟩
  have hform : x = "--version" ∨ x = "-V" := by
    simpa [versionSpelling, Bool.or_eq_true, beq_iff_eq] using hpx
  rcases hform with rfl | rfl
  · exact h (Or.inl hx)
  · exact h (Or.inr hx)

theorem ne_nil_of_mem_or (args : List String) (x y : String) (h : x ∈ args ∨ y ∈ args) :
    args ≠ [] := by
  intro h0
  subst h0
  rcases h with h | h <;> exact absurd h (List.not_mem_nil _)

theorem run_help_rewrite (args : List String) (configured : Bool)
    (hh : args.any helpSpelling = true) (hv : args.any versionSpelling = false)
    (hne : args ≠ []) :
    DoitNikola.run DoitNikola.get_commands configured args
      = RunOutcome.dispatch ("help" :: stripHelp args) := by
  have h1 : resolveArgs args = "help" :: stripHelp args := by
    unfold resolveArgs
    rw [emptyStage_of_ne_nil args hne]
    unfold helpStage
    rw [if_pos hh, stripHelp_cons_help]
    unfold versionStage
    rw [List.any_cons]
    have hvh : versionSpelling "help" = false := rfl
    rw [hvh, stripHelp_any_version, hv]
    simp
  exact run_dispatch_of_exempt _ configured args "help" (stripHelp args) CmdClass.helpCls h1
    lookup_help rfl

theorem run_version_rewrite (args : List String) (configured : Bool)
    (hv : args.any versionSpelling = true) (hne : args ≠ []) :
    DoitNikola.run DoitNikola.get_commands configured args = RunOutcome.dispatch ["version"] := by
  have h1 : resolveArgs args = ["version"] := by
    unfold resolveArgs
    rw [emptyStage_of_ne_nil args hne]
    unfold helpStage
    by_cases hh : args.any helpSpelling = true
    · rw [if_pos hh, stripHelp_cons_help]
      unfold versionStage
      rw [List.any_cons]
      have hvh : versionSpelling "help" = false := rfl
      rw [hvh, stripHelp_any_version, hv]
      rfl
    · rw [if_neg hh]
      unfold versionStage
      rw [if_pos hv]
  exact run_dispatch_of_exempt _ configured args "version" [] CmdClass.pluginCmd h1
    lookup_version rfl

/-! ## Helper lemmas about `main` -/

theorem main_eq_ok (env : MainEnv) (args : List String) (d : ConfigDict)
    (h : env.confLoad = Except.ok d) :
    NikolaMain.main env args
      = mainRest env (argsAfterConf args) (confFilenameOf args)
          (env.stderrIsAtty && !env.osNameNt) (mainQuietFlag args) d
          (preEvents env args ++ [Event.configLoaded]) := by
  unfold NikolaMain.main
  rw [h]

theorem main_eq_err_exists (env : MainEnv) (args : List String)
    (h : env.confLoad = Except.error ()) (hex : env.confExists = true) :
    NikolaMain.main env args
      = { events := preEvents env args
            ++ [Event.logError (parseErrorMsg (confFilenameOf args) env.tracebackText)],
          outcome := MainOutcome.sysExit 1,
          globalConfig := [],
          sitePassedConfig := none,
          dispatched := false,
          freezeStarted := false,
          quiet := mainQuietFlag args } := by
  unfold NikolaMain.main
  rw [h]
  simp [hex]

theorem main_eq_err_missing (env : MainEnv) (args : List String)
    (h : env.confLoad = Except.error ()) (hex : env.confExists = false) :
    NikolaMain.main env args
      = mainRest env (argsAfterConf args) (confFilenameOf args)
          (env.stderrIsAtty && !env.osNameNt) (mainQuietFlag args) []
          (preEvents env args
            ++ (if needsConfigFile (argsAfterConf args)
                  then [Event.logWarn (missingConfMsg (confFilenameOf args))] else [])
            ++ [Event.configLoaded]) := by
  unfold NikolaMain.main
  rw [h]
  simp [hex]

theorem mainRest_quiet (env : MainEnv) (args : List String) (fn : String)
    (colorful quiet : Bool) (cfg : ConfigDict) (evs : List Event) :
    (mainRest env args fn colorful quiet cfg evs).quiet = quiet := rfl

theorem mainRest_outcome (env : MainEnv) (args : List String) (fn : String)
    (colorful quiet : Bool) (cfg : ConfigDict) (evs : List Event) :
    (mainRest env args fn colorful quiet cfg evs).outcome
      = (finalStep env.siteInvariant
          (invariantStep (invariantBranch args) env.freezegunAvailable).2.1 env.engineExit).1 :=
  rfl

theorem mainRest_freezeStarted (env : MainEnv) (args : List String) (fn : String)
    (colorful quiet : Bool) (cfg : ConfigDict) (evs : List Event) :
    (mainRest env args fn colorful quiet cfg evs).freezeStarted
      = (invariantStep (invariantBranch args) env.freezegunAvailable).2.1 := rfl

theorem finalStep_ne_sysExit (si fs : Bool) (c : Int) (n : Nat) :
    (finalStep si fs c).1 ≠ MainOutcome.sysExit n := by
  unfold finalStep
  cases si <;> cases fs <;> simp

theorem mainRest_outcome_ne_sysExit (env : MainEnv) (args : List String) (fn : String)
    (colorful quiet : Bool) (cfg : ConfigDict) (evs : List Event) (n : Nat) :
    (mainRest env args fn colorful quiet cfg evs).outcome ≠ MainOutcome.sysExit n := by
  rw [mainRest_outcome]
  exact finalStep_ne_sysExit _ _ _ _

theorem main_quiet (env : MainEnv) (args : List String) :
    (NikolaMain.main env args).quiet = mainQuietFlag args := by
  unfold NikolaMain.main
  cases hc : env.confLoad with
  | error e =>
      by_cases hex : env.confExists
      · simp [hex]
      · simp [hex, mainRest_quiet]
  | ok d => rfl

theorem injectKey_not_mem_rootEvents (env : MainEnv) (k : String) :
    Event.injectKey k ∉ rootEvents env := by
  unfold rootEvents
  cases env.getRootDir <;> simp

theorem constructSite_not_mem_rootEvents (env : MainEnv) :
    Event.constructSite ∉ rootEvents env := by
  unfold rootEvents
  cases env.getRootDir <;> simp

theorem injectKey_not_mem_preEvents (env : MainEnv) (args : List String) (k : String) :
    Event.injectKey k ∉ preEvents env args := by
  unfold preEvents
  intro h
  simp only [List.mem_append] at h
  rcases h with ((h | h) | h) | h
  · split at h <;> simp_all
  · split at h <;> simp_all
  · split at h <;> simp_all
  · split at h
    · exact injectKey_not_mem_rootEvents env k h
    · simp_all

theorem constructSite_not_mem_preEvents (env : MainEnv) (args : List String) :
    Event.constructSite ∉ preEvents env args := by
  unfold preEvents
  intro h
  simp only [List.mem_append] at h
  rcases h with ((h | h) | h) | h
  · split at h <;> simp_all
  · split at h <;> simp_all
  · split at h <;> simp_all
  · split at h
    · exact constructSite_not_mem_rootEvents env h
    · simp_all

theorem injectKey_not_mem_invariantStep (b a : Bool) (k : String) :
    Event.injectKey k ∉ (invariantStep b a).2.2 := by
  unfold invariantStep
  cases b <;> cases a <;> simp

theorem constructSite_not_mem_invariantStep (b a : Bool) :
    Event.constructSite ∉ (invariantStep b a).2.2 := by
  unfold invariantStep
  cases b <;> cases a <;> simp

theorem injectKey_not_mem_pluginsEvents (env : MainEnv) (cfg : ConfigDict) (k : String) :
    Event.injectKey k ∉ pluginsEvents env cfg := by
  unfold pluginsEvents
  split
  · simp
  · split <;> simp

theorem constructSite_not_mem_pluginsEvents (env : MainEnv) (cfg : ConfigDict) :
    Event.constructSite ∉ pluginsEvents env cfg := by
  unfold pluginsEvents
  split
  · simp
  · split <;> simp

theorem injectKey_not_mem_finalStep (si fs : Bool) (c : Int) (k : String) :
    Event.injectKey k ∉ (finalStep si fs c).2 := by
  unfold finalStep
  cases si <;> cases fs <;> simp

theorem constructSite_not_mem_finalStep (si fs : Bool) (c : Int) :
    Event.constructSite ∉ (finalStep si fs c).2 := by
  unfold finalStep
  cases si <;> cases fs <;> simp

theorem mainRest_inject_decomp (env : MainEnv) (args : List String) (fn : String)
    (colorful quiet : Bool) (cfg : ConfigDict) (evs : List Event)
    (h1 : Event.configLoaded ∈ evs)
    (h2 : ∀ k, Event.injectKey k ∉ evs)
    (h3 : Event.constructSite ∉ evs) :
    ∃ pre post, (mainRest env args fn colorful quiet cfg evs).events = pre ++ injectBlock ++ post
      ∧ Event.configLoaded ∈ pre
      ∧ (∀ k, Event.injectKey k ∉ pre)
      ∧ (∀ k, Event.injectKey k ∉ post)
      ∧ Event.constructSite ∉ pre
      ∧ Event.constructSite ∉ post := by
  refine ⟨evs ++ (invariantStep (invariantBranch args) env.freezegunAvailable).2.2
            ++ pluginsEvents env cfg,
          Event.dispatchEngine args
            :: (finalStep env.siteInvariant
                 (invariantStep (invariantBranch args) env.freezegunAvailable).2.1
                 env.engineExit).2,
          ?_, ?_, ?_, ?_, ?_, ?_⟩
  · show (mainRest env args fn colorful quiet cfg evs).events = _
    unfold mainRest
    simp [List.append_assoc]
  · simp [List.mem_append, h1]
  · intro k
    simp only [List.mem_append, not_or]
    exact ⟨⟨h2 k, injectKey_not_mem_invariantStep _ _ k⟩, injectKey_not_mem_pluginsEvents env cfg k⟩
  · intro k
    simp only [List.mem_cons, not_or]
    exact ⟨by simp, injectKey_not_mem_finalStep _ _ _ k⟩
  · simp only [List.mem_append, not_or]
    exact ⟨⟨h3, constructSite_not_mem_invariantStep _ _⟩, constructSite_not_mem_pluginsEvents env cfg⟩
  · simp only [List.mem_cons, not_or]
    exact ⟨by simp, constructSite_not_mem_finalStep _ _ _⟩

/-! ## Claim theorems -/

/-- C1: whenever the first token after the rewrites looks up to an engine
command object (not an instance of the plugin `Command` category nor of
`Help`) and `nikola.configured` is false, `DoitNikola.run` returns the
not-configured outcome with exit code 3 — it never reaches the dispatch
to `super().run` where the task graph would be assembled; and for the
meta commands `help`, `version` and `init` (instances of `Help` or of the
plugin `Command` category in the merged registry) the gate never applies:
with any trailing arguments and an unconfigured project they still
dispatch. -/
theorem c1_project_gate :
    (∀ (sub : Registry) (args : List String) (a : String) (c : CmdClass),
        (resolveArgs args).head? = some a →
        sub.lookup a = some c →
        isCommandOrHelp c = false →
        DoitNikola.run sub false args = RunOutcome.notConfigured
          ∧ (DoitNikola.run sub false args).exitCode = some 3)
    ∧ (∀ (rest : List String) (configured : Bool),
        (∃ ds, DoitNikola.run DoitNikola.get_commands configured ("help" :: rest)
            = RunOutcome.dispatch ds)
        ∧ (∃ ds, DoitNikola.run DoitNikola.get_commands configured ("version" :: rest)
            = RunOutcome.dispatch ds)
        ∧ (∃ ds, DoitNikola.run DoitNikola.get_commands configured ("init" :: rest)
            = RunOutcome.dispatch ds)) := by
  constructor
  · intro sub args a c hhead hlook hc
    cases hr : resolveArgs args with
    | nil =>
        rw [hr] at hhead
        exact absurd hhead (by simp)
    | cons b t =>
        rw [hr] at hhead
        have hba : b = a := by simpa using hhead
        subst hba
        have hrun : DoitNikola.run sub false args = RunOutcome.notConfigured := by
          rw [run_eq_of_resolve sub false args b t hr, hlook]
          simp [hc]
        exact ⟨hrun, by rw [hrun]; rfl⟩
  · intro rest configured
    exact ⟨run_meta_dispatch "help" rest configured (Or.inr lookup_help),
           run_meta_dispatch "version" rest configured (Or.inl lookup_version),
           run_meta_dispatch "init" rest configured (Or.inl lookup_init)⟩

/-- Witness for C1: the engine command `build` without a configured
project is gated with exit code 3. -/
theorem c1_project_gate_witness :
    DoitNikola.run DoitNikola.get_commands false ["build"] = RunOutcome.notConfigured
    ∧ (DoitNikola.run DoitNikola.get_commands false ["build"]).exitCode = some 3 :=
  c1_project_gate.1 DoitNikola.get_commands ["build"] "build" CmdClass.doitCmd
    (by decide) (by decide) rfl

/-- Counterexample to C2 as stated: the argument list
`['--help', '--version']` contains a help spelling, yet the invocation
does not resolve to `help` with help spellings stripped — the version
rule still fires on the rewritten tokens and the dispatch is
`['version']`. -/
theorem c2_counterexample :
    DoitNikola.run DoitNikola.get_commands true ["--help", "--version"]
      = RunOutcome.dispatch ["version"]
    ∧ DoitNikola.run DoitNikola.get_commands true ["--help", "--version"]
        ≠ RunOutcome.dispatch ("help" :: stripHelp ["--help", "--version"]) := by
  decide

/-- C2 amended: the rules are applied in source order, but the help rule
does not short-circuit the version rule: if a version spelling is present
among the tokens (the help rewrite never removes one), the invocation
resolves to `version` alone, even when a help spelling is also present;
only when no version spelling is present does a help spelling resolve the
invocation to `help` with the help spellings stripped. -/
theorem c2_version_not_shortcircuited (args : List String) (configured : Bool) :
    (("--version" ∈ args ∨ "-V" ∈ args) →
        DoitNikola.run DoitNikola.get_commands configured args = RunOutcome.dispatch ["version"])
    ∧ (("--help" ∈ args ∨ "-h" ∈ args) → ¬("--version" ∈ args ∨ "-V" ∈ args) →
        DoitNikola.run DoitNikola.get_commands configured args
          = RunOutcome.dispatch ("help" :: stripHelp args)) := by
  constructor
  · intro hv
    exact run_version_rewrite args configured (any_versionSpelling_of_mem args hv)
      (ne_nil_of_mem_or args _ _ hv)
  · intro hh hv
    exact run_help_rewrite args configured (any_helpSpelling_of_mem args hh)
      (any_versionSpelling_eq_false args hv) (ne_nil_of_mem_or args _ _ hh)

/-- Witness for the amended C2: both rules at concrete inputs. -/
theorem c2_version_not_shortcircuited_witness :
    DoitNikola.run DoitNikola.get_commands true ["-V"] = RunOutcome.dispatch ["version"]
    ∧ DoitNikola.run DoitNikola.get_commands true ["--help", "build"]
        = RunOutcome.dispatch ("help" :: stripHelp ["--help", "build"]) :=
  ⟨(c2_version_not_shortcircuited ["-V"] true).1 (Or.inr (by decide)),
   (c2_version_not_shortcircuited ["--help", "build"] true).2 (Or.inl (by decide)) (by decide)⟩

/-- C4: the empty argument list always resolves to the single command
`help`, which the registry knows and never gates, so `run` dispatches
`['help']` whether or not the project is configured. -/
theorem c4_empty_resolves_help :
    resolveArgs [] = ["help"]
    ∧ DoitNikola.run DoitNikola.get_commands false [] = RunOutcome.dispatch ["help"]
    ∧ DoitNikola.run DoitNikola.get_commands true [] = RunOutcome.dispatch ["help"] := by
  decide

/-- C5: a help spelling anywhere in the tokens makes the help rewrite
stage replace the invocation by `help` followed by all original tokens
with every help spelling removed, independent of position; and as long
as no version spelling is among the tokens, `DoitNikola.run` dispatches
exactly that rewritten invocation (the interaction with a version
spelling is settled separately with claim C2). -/
theorem c5_help_rewrite_anywhere (args : List String) (h : "--help" ∈ args ∨ "-h" ∈ args) :
    helpStage args = "help" :: stripHelp args
    ∧ (¬("--version" ∈ args ∨ "-V" ∈ args) →
        ∀ configured : Bool,
          DoitNikola.run DoitNikola.get_commands configured args
            = RunOutcome.dispatch ("help" :: stripHelp args)) := by
  have hh := any_helpSpelling_of_mem args h
  constructor
  · unfold helpStage
    rw [if_pos hh, stripHelp_cons_help]
  · intro hv configured
    exact run_help_rewrite args configured hh (any_versionSpelling_eq_false args hv)
      (ne_nil_of_mem_or args _ _ h)

/-- Witness for C5: `--help` together with `build` resolves to `help`
with `build` retained. -/
theorem c5_help_rewrite_anywhere_witness :
    DoitNikola.run DoitNikola.get_commands true ["build", "--help"]
      = RunOutcome.dispatch ["help", "build"] :=
  ((c5_help_rewrite_anywhere ["build", "--help"] (Or.inl (by decide))).2
      (by decide) true).trans (by decide)

/-- C6: when the argument list is non-empty and its first token after the
help/version rewrites is not a key of the registry, `run` returns the
unknown-command outcome (which logs the unknown-command error) carrying
exit code 3, without dispatching anything. -/
theorem c6_unknown_command_exit3 (sub : Registry) (configured : Bool) (args : List String)
    (_h1 : args ≠ []) (h2 : sub.lookup (firstResolved args) = none) :
    DoitNikola.run sub configured args = RunOutcome.unknownCommand (firstResolved args)
    ∧ (DoitNikola.run sub configured args).exitCode = some 3 := by
  cases hr : resolveArgs args with
  | nil => exact absurd hr (resolveArgs_ne_nil args)
  | cons a t =>
      have hfst : firstResolved args = a := by
        unfold firstResolved
        rw [hr]
        rfl
      rw [hfst] at h2 ⊢
      have hrun : DoitNikola.run sub configured args = RunOutcome.unknownCommand a := by
        rw [run_eq_of_resolve sub configured args a t hr, h2]
      exact ⟨hrun, by rw [hrun]; rfl⟩

/-- Witness for C6: an unknown first token. -/
theorem c6_unknown_command_exit3_witness :
    DoitNikola.run DoitNikola.get_commands false ["frobnicate"]
      = RunOutcome.unknownCommand (firstResolved ["frobnicate"]) :=
  (c6_unknown_command_exit3 DoitNikola.get_commands false ["frobnicate"]
    (by decide) (by decide)).1

theorem main_cases (env : MainEnv) (args : List String)
    (h : (NikolaMain.main env args).outcome ≠ MainOutcome.sysExit 1) :
    ∃ cfg evs, Event.configLoaded ∈ evs ∧ (∀ k, Event.injectKey k ∉ evs)
      ∧ Event.constructSite ∉ evs
      ∧ NikolaMain.main env args
          = mainRest env (argsAfterConf args) (confFilenameOf args)
              (env.stderrIsAtty && !env.osNameNt) (mainQuietFlag args) cfg evs := by
  cases hc : env.confLoad with
  | ok d =>
      refine ⟨d, preEvents env args ++ [Event.configLoaded], ?_, ?_, ?_, main_eq_ok env args d hc⟩
      · simp
      · intro k
        simp only [List.mem_append, not_or]
        exact ⟨injectKey_not_mem_preEvents env args k, by simp⟩
      · simp only [List.mem_append, not_or]
        exact ⟨constructSite_not_mem_preEvents env args, by simp⟩
  | error e =>
      cases e
      by_cases hex : env.confExists = true
      · exfalso
        rw [main_eq_err_exists env args hc hex] at h
        exact h rfl
      · rw [Bool.not_eq_true] at hex
        refine ⟨[], preEvents env args
            ++ (if needsConfigFile (argsAfterConf args)
                  then [Event.logWarn (missingConfMsg (confFilenameOf args))] else [])
            ++ [Event.configLoaded], ?_, ?_, ?_, main_eq_err_missing env args hc hex⟩
        · simp
        · intro k
          simp only [List.mem_append, not_or]
          refine ⟨⟨injectKey_not_mem_preEvents env args k, ?_⟩, by simp⟩
          split <;> simp
        · simp only [List.mem_append, not_or]
          refine ⟨⟨constructSite_not_mem_preEvents env args, ?_⟩, by simp⟩
          split <;> simp

theorem mainRest_freeze_gate (env : MainEnv) (args : List String) (fn : String)
    (colorful quiet : Bool) (cfg : ConfigDict) (evs : List Event)
    (hinv : env.siteInvariant = true) :
    ((mainRest env args fn colorful quiet cfg evs).freezeStarted = false →
        (mainRest env args fn colorful quiet cfg evs).outcome = MainOutcome.unboundLocalError)
    ∧ (∀ c : Int, (mainRest env args fn colorful quiet cfg evs).outcome = MainOutcome.ret c →
        (mainRest env args fn colorful quiet cfg evs).freezeStarted = true) := by
  constructor
  · intro h0
    rw [mainRest_freezeStarted] at h0
    rw [mainRest_outcome, hinv, h0]
    rfl
  · intro c hc0
    rw [mainRest_outcome, hinv] at hc0
    rw [mainRest_freezeStarted]
    by_contra hb
    rw [Bool.not_eq_true] at hb
    rw [hb] at hc0
    exact absurd hc0 (by simp [finalStep])

/-- C3: when the configuration file exists but raises while being
executed, `main` logs the error naming the file with the truncated
traceback, exits with code 1, never constructs the Site Model, never
dispatches the engine (so no work graph is built), and the module-global
`config` mapping stays empty. -/
theorem c3_parse_failure_fatal (env : MainEnv) (args : List String)
    (h1 : env.confLoad = Except.error ()) (h2 : env.confExists = true) :
    (NikolaMain.main env args).outcome = MainOutcome.sysExit 1
    ∧ (NikolaMain.main env args).globalConfig = []
    ∧ (NikolaMain.main env args).sitePassedConfig = none
    ∧ (NikolaMain.main env args).dispatched = false
    ∧ Event.logError (parseErrorMsg (confFilenameOf args) env.tracebackText)
        ∈ (NikolaMain.main env args).events := by
  rw [main_eq_err_exists env args h1 h2]
  refine ⟨rfl, rfl, rfl, rfl, ?_⟩
  simp

/-- Witness for C3: a failing `conf.py` for a `build` invocation. -/
theorem c3_parse_failure_fatal_witness :
    envParseFail.confLoad = Except.error ()
    ∧ envParseFail.confExists = true
    ∧ (NikolaMain.main envParseFail ["build"]).outcome = MainOutcome.sysExit 1
    ∧ (NikolaMain.main envParseFail ["build"]).dispatched = false :=
  ⟨rfl, rfl, (c3_parse_failure_fatal envParseFail ["build"] rfl rfl).1,
    (c3_parse_failure_fatal envParseFail ["build"] rfl rfl).2.2.2.1⟩

/-- C7: for a real (non-dry) run with a non-empty config, `clean_tasks`
first removes the tree named by `CACHE_FOLDER` (default `cache`) when it
exists — the purge event precedes the generic clean event — and is a
silent no-op on the cache when the directory is absent; a dry run never
touches the file system before the generic clean; and with
`CACHE_FOLDER = 'mycache'` it is `mycache`, not `cache`, that is
removed. -/
theorem c7_clean_cache_folder (cfg : ConfigDict) (fs : FS) (cf : String)
    (hcfg : cfg ≠ []) (hcf : getCacheFolder cfg = Except.ok cf) :
    (pathExists fs cf = true →
        Clean.clean_tasks cfg fs false
          = Except.ok (rmtreeFS fs cf, [CleanEvent.rmtree cf, CleanEvent.genericClean false]))
    ∧ (pathExists fs cf = false →
        Clean.clean_tasks cfg fs false = Except.ok (fs, [CleanEvent.genericClean false]))
    ∧ Clean.clean_tasks cfg fs true = Except.ok (fs, [CleanEvent.genericClean true])
    ∧ Clean.clean_tasks [("CACHE_FOLDER", CVal.s "mycache")] ["mycache", "cache"] false
        = Except.ok (["cache"], [CleanEvent.rmtree "mycache", CleanEvent.genericClean false]) := by
  have hne : cfg.isEmpty = false := by
    cases cfg with
    | nil => exact absurd rfl hcfg
    | cons a l => rfl
  refine ⟨?_, ?_, ?_, rfl⟩
  · intro hex
    unfold Clean.clean_tasks
    rw [hne, hcf]
    simp [hex]
  · intro hex
    unfold Clean.clean_tasks
    rw [hne, hcf]
    simp [hex]
  · unfold Clean.clean_tasks
    simp

/-- Witness for C7: the configured cache folder `mycache` is removed,
`cache` is kept; a dry run keeps the file system intact. -/
theorem c7_clean_cache_folder_witness :
    Clean.clean_tasks [("CACHE_FOLDER", CVal.s "mycache")] ["mycache", "cache"] true
      = Except.ok (["mycache", "cache"], [CleanEvent.genericClean true])
    ∧ Clean.clean_tasks [("CACHE_FOLDER", CVal.s "mycache")] ["mycache", "cache"] false
        = Except.ok (["cache"], [CleanEvent.rmtree "mycache", CleanEvent.genericClean false]) :=
  ⟨(c7_clean_cache_folder [("CACHE_FOLDER", CVal.s "mycache")] ["mycache", "cache"] "mycache"
      (by decide) rfl).2.2.1,
   (c7_clean_cache_folder [("CACHE_FOLDER", CVal.s "mycache")] ["mycache", "cache"] "mycache"
      (by decide) rfl).2.2.2⟩

/-- C8: an invocation `build` with `-q` (or with `--quiet`) makes `main`
select quiet mode, and `load_tasks` then pairs the task groups with
verbosity 0 and the silent `zero` reporter; without quiet mode it selects
the executed-only reporter writing to the error stream. -/
theorem c8_quiet_reporter :
    (∀ (env : MainEnv) (rest : List String), "-q" ∈ rest →
        (NikolaMain.main env ("build" :: rest)).quiet = true)
    ∧ (∀ (env : MainEnv) (rest : List String), "--quiet" ∈ rest →
        (NikolaMain.main env ("build" :: rest)).quiet = true)
    ∧ (∀ renderTasks postRenderTasks : List String,
        (NikolaTaskLoader.load_tasks true renderTasks postRenderTasks).2
          = { verbosity := some 0, reporter := Reporter.zeroReporter, outfile := none,
              default_tasks := ["render_site", "post_render"] })
    ∧ (∀ renderTasks postRenderTasks : List String,
        (NikolaTaskLoader.load_tasks false renderTasks postRenderTasks).2
          = { verbosity := none, reporter := Reporter.executedOnlyReporter,
              outfile := some OutStream.stderr,
              default_tasks := ["render_site", "post_render"] }) := by
  refine ⟨?_, ?_, fun _ _ => rfl, fun _ _ => rfl⟩
  · intro env rest hq
    rw [main_quiet]
    have hmem : List.contains ("build" :: rest) "-q" = true :=
      List.elem_eq_true_of_mem (List.mem_cons_of_mem _ hq)
    unfold mainQuietFlag buildFlagPresent
    simp [hmem]
    exact Or.inl hq
  · intro env rest hq
    rw [main_quiet]
    have hmem : List.contains ("build" :: rest) "--quiet" = true :=
      List.elem_eq_true_of_mem (List.mem_cons_of_mem _ hq)
    unfold mainQuietFlag buildFlagPresent
    simp [hmem]
    exact Or.inr hq

/-- Witness for C8: `build -q` selects quiet mode and the silent
configuration. -/
theorem c8_quiet_reporter_witness :
    (NikolaMain.main envOkEmpty ["build", "-q"]).quiet = true
    ∧ (NikolaTaskLoader.load_tasks true [] []).2
        = { verbosity := some 0, reporter := Reporter.zeroReporter, outfile := none,
            default_tasks := ["render_site", "post_render"] } :=
  ⟨c8_quiet_reporter.1 envOkEmpty ["-q"] (by decide), c8_quiet_reporter.2.2.1 [] []⟩

/-- C9: on every run of `main` that does not exit with code 1, the event
trace splits around the block that writes the four reserved keys and then
constructs the Site Model: the keys are injected there and nowhere else
(exactly once each), after the configuration load resolved
(`configLoaded` is in the prefix) and strictly before the only Site Model
construction. -/
theorem c9_reserved_keys_once (env : MainEnv) (args : List String)
    (h : (NikolaMain.main env args).outcome ≠ MainOutcome.sysExit 1) :
    ∃ pre post, (NikolaMain.main env args).events = pre ++ injectBlock ++ post
      ∧ Event.configLoaded ∈ pre
      ∧ (∀ k, Event.injectKey k ∉ pre)
      ∧ (∀ k, Event.injectKey k ∉ post)
      ∧ Event.constructSite ∉ pre
      ∧ Event.constructSite ∉ post := by
  obtain ⟨cfg, evs, h1, h2, h3, heq⟩ := main_cases env args h
  rw [heq]
  exact mainRest_inject_decomp env (argsAfterConf args) (confFilenameOf args)
    (env.stderrIsAtty && !env.osNameNt) (mainQuietFlag args) cfg evs h1 h2 h3

/-- Witness for C9: a successful empty configuration load. -/
theorem c9_reserved_keys_once_witness :
    (NikolaMain.main envOkEmpty []).outcome ≠ MainOutcome.sysExit 1
    ∧ ∃ pre post, (NikolaMain.main envOkEmpty []).events = pre ++ injectBlock ++ post
        ∧ Event.configLoaded ∈ pre
        ∧ (∀ k, Event.injectKey k ∉ pre)
        ∧ (∀ k, Event.injectKey k ∉ post)
        ∧ Event.constructSite ∉ pre
        ∧ Event.constructSite ∉ post :=
  ⟨by decide, c9_reserved_keys_once envOkEmpty [] (by decide)⟩

/-- C10: on a non-exiting run, if the constructed Site Model reports
invariant mode while this invocation never started the freeze (the
invariant branch was not entered, or freezegun was missing), then the
final `freeze.stop()` call hits an unbound local and `main` raises
instead of returning the engine exit code; conversely a normal return
with the site reporting invariant mode implies the freeze was started. -/
theorem c10_unbound_freeze_local (env : MainEnv) (args : List String)
    (h : (NikolaMain.main env args).outcome ≠ MainOutcome.sysExit 1)
    (hinv : env.siteInvariant = true) :
    ((NikolaMain.main env args).freezeStarted = false →
        (NikolaMain.main env args).outcome = MainOutcome.unboundLocalError)
    ∧ (∀ c : Int, (NikolaMain.main env args).outcome = MainOutcome.ret c →
        (NikolaMain.main env args).freezeStarted = true) := by
  obtain ⟨cfg, evs, _, _, _, heq⟩ := main_cases env args h
  rw [heq]
  exact mainRest_freeze_gate env (argsAfterConf args) (confFilenameOf args)
    (env.stderrIsAtty && !env.osNameNt) (mainQuietFlag args) cfg evs hinv

/-- Witness for C10: a site reporting invariant mode with no freeze
started makes `main` end in the unbound-local error. -/
theorem c10_unbound_freeze_local_witness :
    envFrozenReport.siteInvariant = true
    ∧ (NikolaMain.main envFrozenReport []).freezeStarted = false
    ∧ (NikolaMain.main envFrozenReport []).outcome = MainOutcome.unboundLocalError :=
  ⟨rfl, by decide,
    (c10_unbound_freeze_local envFrozenReport [] (by decide) rfl).1 (by decide)⟩
